import Mathlib

/-!
Verification of the control core of the perfect-toast-machine firmware.

The firmware's loop bodies (deployment sketch `perfect-toast-machine.ino`,
rolling-inference test sketch, and the data-collection / toaster-control
sketch `ptm-toaster-control-test.ino`) are embedded as executable Lean
definitions:

* IEEE `float` values are modelled as exact rationals (`ℚ`);
* the C arrays `input_buf`, `frame_buf` are modelled as functions `ℕ → ℚ`
  updated pointwise, exactly mirroring the index arithmetic of the source;
* `unsigned long` (32-bit) time arithmetic is modelled on `ℕ` explicitly
  modulo `2 ^ 32 = 4294967296`;
* the external Edge Impulse classifier is an opaque parameter
  `classify : (ℕ → ℚ) → ℕ → ℚ` mapping the window buffer to the per-class
  output values (`result.classification[i].value`).
-/

namespace PTM

/-- The window length `WINDOW_LEN = EI_CLASSIFIER_RAW_SAMPLE_COUNT` of the
deployed Edge Impulse model: the static test sample in
`ptm-static-inference-test.ino` has 180 features = 20 frames of 9 channels. -/
def WINDOW_LEN : ℕ := 20

/-- The channel count `NUM_CHANNELS = EI_CLASSIFIER_RAW_SAMPLES_PER_FRAME`:
the loop fills `frame_buf[0] .. frame_buf[8]`, nine channels. -/
def NUM_CHANNELS : ℕ := 9

/-- Flat index of the newest frame: `(WINDOW_LEN - 1) * NUM_CHANNELS`
(local constant `final_frame_idx` of `loop`). -/
def final_frame_idx : ℕ := (WINDOW_LEN - 1) * NUM_CHANNELS

/-- Training-time standardization means
`{temp, humd, co2, voc1, voc2, no2, eth, co, nh3}` (constant table `means`). -/
def means : List ℚ :=
  [75.502, 8.4883, 14913.9847, 32933.7305, 2.5958, 2.2113, 2.6475, 2.1576, 2.277]

/-- Training-time standardization standard deviations (constant table
`std_devs`). -/
def std_devs : List ℚ :=
  [23.2281, 9.0292, 18230.8385, 24429.9224, 0.3656, 0.5479, 0.3673, 0.4927, 0.593]

/-- Pointwise update of a modelled C array: `b[k] = v`. -/
def arraySet (b : ℕ → ℚ) (k : ℕ) (v : ℚ) : ℕ → ℚ :=
  fun m => if m = k then v else b m

/-- The window-roll double loop of `loop` (lines 213-217 of
`perfect-toast-machine.ino`):

    for (int i = 0; i < WINDOW_LEN - 1; i++)
      for (int j = 0; j < NUM_CHANNELS; j++)
        input_buf[(i * NUM_CHANNELS) + j] = input_buf[((i + 1) * NUM_CHANNELS) + j];
-/
def rollWindow (b : ℕ → ℚ) : ℕ → ℚ :=
  (List.range (WINDOW_LEN - 1)).foldl
    (fun acc i =>
      (List.range NUM_CHANNELS).foldl
        (fun acc2 j =>
          arraySet acc2 (i * NUM_CHANNELS + j) (acc2 ((i + 1) * NUM_CHANNELS + j)))
        acc)
    b

/-- The standardize-and-append loop of `loop` (lines 220-222):

    for (int j = 0; j < NUM_CHANNELS; j++)
      input_buf[final_frame_idx + j] = (frame_buf[j] - means[j]) / std_devs[j];
-/
def standardize_write (b : ℕ → ℚ) (frame : ℕ → ℚ) : ℕ → ℚ :=
  (List.range NUM_CHANNELS).foldl
    (fun acc j =>
      arraySet acc (final_frame_idx + j)
        ((frame j - means.getD j 0) / std_devs.getD j 0))
    b

/-- One sample tick's effect on the rolling window: evict the oldest frame,
append the standardized newest frame (the combination of the two loops
above, in source order). -/
def pushFrame (b : ℕ → ℚ) (frame : ℕ → ℚ) : ℕ → ℚ :=
  standardize_write (rollWindow b) frame

/-- The per-channel standardization value the source writes into the newest
window slot: `(frame_buf[j] - means[j]) / std_devs[j]`. -/
def standardize (frame : ℕ → ℚ) (j : ℕ) : ℚ :=
  (frame j - means.getD j 0) / std_devs.getD j 0

/-! ### Pointwise characterization of the two loops -/

/-- A left fold of ascending copy-from-`C`-slots-ahead writes is the
pointwise shift: every read happens at an index not yet written. -/
lemma foldl_arraySet_shift (C : ℕ) :
    ∀ (n : ℕ) (b : ℕ → ℚ),
      (List.range n).foldl (fun acc k => arraySet acc k (acc (k + C))) b
        = fun m => if m < n then b (m + C) else b m := by
  intro n
  induction n with
  | zero =>
    intro b
    funext m
    simp [List.range_zero]
  | succ n ih =>
    intro b
    rw [List.range_succ, List.foldl_append, ih b]
    funext m
    simp only [List.foldl_cons, List.foldl_nil, arraySet]
    rcases Nat.lt_trichotomy m n with h | h | h
    · have h1 : ¬ m = n := by omega
      have h2 : m < n + 1 := by omega
      simp [h1, h, h2]
    · subst h
      have h1 : ¬ m + C < m := by omega
      simp [h1]
    · have h1 : ¬ m = n := by omega
      have h2 : ¬ m < n := by omega
      have h3 : ¬ m < n + 1 := by omega
      simp [h1, h2, h3]

/-- The double roll loop visits the flat indices `0, 1, …, Wn*Cn - 1` in
increasing order; it equals the single flat fold. -/
lemma foldl_double_flat (Cn : ℕ) :
    ∀ (Wn : ℕ) (b : ℕ → ℚ),
      (List.range Wn).foldl
          (fun acc i =>
            (List.range Cn).foldl
              (fun acc2 j => arraySet acc2 (i * Cn + j) (acc2 ((i + 1) * Cn + j)))
              acc)
          b
        = (List.range (Wn * Cn)).foldl
            (fun acc k => arraySet acc k (acc (k + Cn))) b := by
  intro Wn
  induction Wn with
  | zero => intro b; simp [List.range_zero]
  | succ Wn ih =>
    intro b
    rw [List.range_succ, List.foldl_append, ih b, Nat.succ_mul,
      List.range_add, List.foldl_append, List.foldl_map]
    simp only [List.foldl_cons, List.foldl_nil]
    have harith : ∀ j : ℕ, (Wn + 1) * Cn + j = Wn * Cn + j + Cn := by
      intro j; ring
    have hfun :
        (fun (acc2 : ℕ → ℚ) (j : ℕ) =>
            arraySet acc2 (Wn * Cn + j) (acc2 ((Wn + 1) * Cn + j)))
          = fun acc2 j => arraySet acc2 (Wn * Cn + j) (acc2 (Wn * Cn + j + Cn)) := by
      funext acc2 j
      rw [harith j]
    rw [hfun]

/-- A left fold writing values `g j` at distinct slots `base + j` is the
pointwise segment write. -/
lemma foldl_arraySet_write (base : ℕ) (g : ℕ → ℚ) :
    ∀ (n : ℕ) (b : ℕ → ℚ),
      (List.range n).foldl (fun acc j => arraySet acc (base + j) (g j)) b
        = fun m => if base ≤ m ∧ m < base + n then g (m - base) else b m := by
  intro n
  induction n with
  | zero =>
    intro b
    funext m
    simp only [List.range_zero, List.foldl_nil, Nat.add_zero]
    have h : ¬ (base ≤ m ∧ m < base) := by omega
    simp [h]
  | succ n ih =>
    intro b
    rw [List.range_succ, List.foldl_append, ih b]
    funext m
    simp only [List.foldl_cons, List.foldl_nil, arraySet]
    by_cases h : m = base + n
    · subst h
      have h1 : base ≤ base + n ∧ base + n < base + (n + 1) := by omega
      simp [h1]
    · have h2 : (base ≤ m ∧ m < base + (n + 1)) ↔ (base ≤ m ∧ m < base + n) := by
        omega
      simp [h, h2]

/-- Pointwise behavior of one window push. -/
lemma pushFrame_apply (b frame : ℕ → ℚ) (m : ℕ) :
    pushFrame b frame m
      = if final_frame_idx ≤ m ∧ m < final_frame_idx + NUM_CHANNELS then
          standardize frame (m - final_frame_idx)
        else if m < final_frame_idx then b (m + NUM_CHANNELS)
        else b m := by
  unfold pushFrame standardize_write rollWindow
  rw [foldl_double_flat, foldl_arraySet_shift,
    foldl_arraySet_write final_frame_idx
      (fun j => (frame j - means.getD j 0) / std_devs.getD j 0)]
  have hidx : (WINDOW_LEN - 1) * NUM_CHANNELS = final_frame_idx := rfl
  rw [hidx]
  by_cases h : final_frame_idx ≤ m ∧ m < final_frame_idx + NUM_CHANNELS
  · simp [h, standardize]
  · have hlt : (m < final_frame_idx) ∨ ¬ (m < final_frame_idx) := em _
    rcases hlt with hlt | hlt
    · simp [h, hlt]
    · have h2 : ¬ m + NUM_CHANNELS < final_frame_idx := by
        unfold final_frame_idx NUM_CHANNELS WINDOW_LEN at *
        omega
      simp [h, hlt, h2]

/-- Frames strictly before the last move one frame toward index 0. -/
lemma pushFrame_frame_lt (b frame : ℕ → ℚ) (i j : ℕ)
    (hi : i < WINDOW_LEN - 1) (hj : j < NUM_CHANNELS) :
    pushFrame b frame (i * NUM_CHANNELS + j) = b ((i + 1) * NUM_CHANNELS + j) := by
  rw [pushFrame_apply]
  unfold final_frame_idx NUM_CHANNELS WINDOW_LEN at *
  have h1 : ¬ ((20 - 1) * 9 ≤ i * 9 + j ∧ i * 9 + j < (20 - 1) * 9 + 9) := by omega
  have h2 : i * 9 + j < (20 - 1) * 9 := by omega
  have h3 : (i + 1) * 9 + j = i * 9 + j + 9 := by ring
  simp [h1, h2, h3]

/-- The newest frame's slots receive the standardized frame. -/
lemma pushFrame_frame_last (b frame : ℕ → ℚ) (j : ℕ) (hj : j < NUM_CHANNELS) :
    pushFrame b frame (final_frame_idx + j) = standardize frame j := by
  rw [pushFrame_apply]
  unfold final_frame_idx NUM_CHANNELS WINDOW_LEN at *
  have h1 : (20 - 1) * 9 ≤ (20 - 1) * 9 + j ∧ (20 - 1) * 9 + j < (20 - 1) * 9 + 9 := by
    omega
  have h2 : (20 - 1) * 9 + j - (20 - 1) * 9 = j := by omega
  simp [h1, h2]

/-- The window after any sequence of pushes, slot by slot: frame `i` of the
result is the standardized `(i + n - WINDOW_LEN)`-th pushed frame once enough
frames have been pushed, and a shifted slot of the initial buffer before
that. -/
lemma window_foldl_pushFrame :
    ∀ (fs : List (ℕ → ℚ)) (b : ℕ → ℚ) (i j : ℕ),
      i < WINDOW_LEN → j < NUM_CHANNELS →
      (fs.foldl pushFrame b) (i * NUM_CHANNELS + j)
        = if WINDOW_LEN ≤ i + fs.length then
            standardize (fs.getD (i + fs.length - WINDOW_LEN) (fun _ => 0)) j
          else b ((i + fs.length) * NUM_CHANNELS + j) := by
  intro fs
  induction fs using List.reverseRecOn with
  | nil =>
    intro b i j hi hj
    have h : ¬ WINDOW_LEN ≤ i + ([] : List (ℕ → ℚ)).length := by
      simpa using by omega
    simp only [List.foldl_nil, List.length_nil, Nat.add_zero]
    have h2 : ¬ WINDOW_LEN ≤ i := by omega
    simp [h2]
  | append_singleton gs f ih =>
    intro b i j hi hj
    rw [List.foldl_append]
    simp only [List.foldl_cons, List.foldl_nil, List.length_append,
      List.length_cons, List.length_nil]
    by_cases hlast : i = WINDOW_LEN - 1
    · subst hlast
      have hfi : (WINDOW_LEN - 1) * NUM_CHANNELS + j = final_frame_idx + j := rfl
      rw [hfi, pushFrame_frame_last _ _ j hj]
      have hcond : WINDOW_LEN ≤ WINDOW_LEN - 1 + (gs.length + (0 + 1)) := by
        unfold WINDOW_LEN
        omega
      have hidx : WINDOW_LEN - 1 + (gs.length + (0 + 1)) - WINDOW_LEN = gs.length := by
        unfold WINDOW_LEN
        omega
      rw [if_pos hcond, hidx]
      rw [List.getD_append_right gs [f] _ gs.length (le_refl _)]
      simp
    · have hi' : i < WINDOW_LEN - 1 := by
        unfold WINDOW_LEN at *
        omega
      rw [pushFrame_frame_lt _ _ i j hi' hj]
      have hi1 : i + 1 < WINDOW_LEN := by
        unfold WINDOW_LEN at *
        omega
      rw [ih b (i + 1) j hi1 hj]
      by_cases hc : WINDOW_LEN ≤ i + 1 + gs.length
      · have hc' : WINDOW_LEN ≤ i + (gs.length + (0 + 1)) := by omega
        rw [if_pos hc, if_pos hc']
        have hidx2 : i + (gs.length + (0 + 1)) - WINDOW_LEN
            = i + 1 + gs.length - WINDOW_LEN := by omega
        rw [hidx2]
        have hk : i + 1 + gs.length - WINDOW_LEN < gs.length := by
          unfold WINDOW_LEN at *
          omega
        rw [List.getD_append gs [f] _ _ hk]
      · have hc' : ¬ WINDOW_LEN ≤ i + (gs.length + (0 + 1)) := by omega
        rw [if_neg hc, if_neg hc']
        have hidx3 : i + 1 + gs.length = i + (gs.length + (0 + 1)) := by omega
        rw [hidx3]

/-! ### The deployment loop body (`perfect-toast-machine.ino`, `loop`) -/

/-- Threshold `CANCEL_THRESHOLD = 40`: cancel toasting if time-to-burnt is
under this value. -/
def CANCEL_THRESHOLD : ℚ := 40

/-- One tick's sensor-read outcome: the toasting-sense digital input, the
two fallible I2C read statuses, and the values the loop assigns into
`frame_buf[0..8]` (lines 202-210). The multichannel-gas and analog reads
have no failure path in the source. -/
structure SensorReads where
  toasting : Bool
  bme_err : Bool
  sgp_err : Bool
  temperature : ℚ
  humidity : ℚ
  sgp_co2 : ℚ
  sgp_tvoc : ℚ
  gm_voc_v : ℚ
  gm_no2_v : ℚ
  gm_eth_v : ℚ
  gm_co_v : ℚ
  nh3_v : ℚ

/-- The frame assembly of lines 202-210:
`frame_buf[0] = temperature; … frame_buf[8] = nh3_v;`. -/
def frame_buf (r : SensorReads) : ℕ → ℚ := fun j =>
  match j with
  | 0 => r.temperature
  | 1 => r.humidity
  | 2 => r.sgp_co2
  | 3 => r.sgp_tvoc
  | 4 => r.gm_voc_v
  | 5 => r.gm_no2_v
  | 6 => r.gm_eth_v
  | 7 => r.gm_co_v
  | 8 => r.nh3_v
  | _ => 0

/-- Persistent loop state: the rolling window `input_buf` and the level last
driven onto `CANCEL_PIN`. -/
structure PTMState where
  input_buf : ℕ → ℚ
  cancel_pin : Bool

/-- What was drawn to the sprite this tick: the time-to-burnt value passed
to `drawString` and the optional textual status. -/
structure LcdFrame where
  time_shown : ℚ
  status : Option String

/-- Observable outcome of one gated loop body. `wrote_pin` records whether
`digitalWrite(CANCEL_PIN, …)` executed this tick. -/
structure TickResult where
  state : PTMState
  pushed : Bool
  inferred : Bool
  log : List String
  lcd : Option LcdFrame
  wrote_pin : Bool

/-- The gated body of `loop` in `perfect-toast-machine.ino` (lines 176-262),
with the external classifier as the opaque parameter `classify` (the window
buffer is passed to it through the `get_signal_data` callback; index 0 of
its output is `result.classification[0].value`):

* a failing BME680 or SGP30 read logs an error and returns immediately
  (lines 180-190), before the window roll, the inference and the pin write;
* otherwise the frame is standardized into the rolled window, the classifier
  runs, the LCD shows the time-to-burnt estimate, and `CANCEL_PIN` is driven
  HIGH when `time_to_burnt < CANCEL_THRESHOLD` (with status `Done!`) and LOW
  otherwise (with status `Toasting...` only while the toasting-sense input
  is high). -/
def tick (classify : (ℕ → ℚ) → ℕ → ℚ) (s : PTMState) (r : SensorReads) :
    TickResult :=
  if r.bme_err = true then
    { state := s, pushed := false, inferred := false
      log := ["Error: Could not read from BME680"], lcd := none, wrote_pin := false }
  else if r.sgp_err = true then
    { state := s, pushed := false, inferred := false
      log := ["Error: Could not read from SGP30"], lcd := none, wrote_pin := false }
  else
    let buf := pushFrame s.input_buf (frame_buf r)
    let time_to_burnt := classify buf 0
    if time_to_burnt < CANCEL_THRESHOLD then
      { state := { input_buf := buf, cancel_pin := true }
        pushed := true, inferred := true, log := []
        lcd := some { time_shown := time_to_burnt, status := some "Done!" }
        wrote_pin := true }
    else
      { state := { input_buf := buf, cancel_pin := false }
        pushed := true, inferred := true, log := []
        lcd := some { time_shown := time_to_burnt
                      status := if r.toasting = true then some "Toasting..." else none }
        wrote_pin := true }

/-- Success status `EIDSP_OK` of the Edge Impulse DSP layer. -/
def EIDSP_OK : Int := 0

/-- The window-slice callback (lines 267-273):

    static int get_signal_data(size_t offset, size_t length, float *out_ptr) {
      for (size_t i = 0; i < length; i++) out_ptr[i] = (input_buf + offset)[i];
      return EIDSP_OK;
    }

returning the filled output buffer and the status code. -/
def get_signal_data (input_buf : ℕ → ℚ) (offset length : ℕ) :
    List ℚ × Int :=
  ((List.range length).map (fun i => input_buf (offset + i)), EIDSP_OK)

/-! ### Unsigned 32-bit time arithmetic -/

/-- C `unsigned long` (32-bit) subtraction `a - b`, on naturals:
`(a + 2 ^ 32 - b) mod 2 ^ 32` with both operands reduced mod
`2 ^ 32 = 4294967296`. -/
def usub32 (a b : ℕ) : ℕ :=
  (a % 4294967296 + 4294967296 - b % 4294967296) % 4294967296

/-- Sample-tick gate `(millis() - sample_timestamp) >= SAMPLE_DELAY`
(line 173 of `perfect-toast-machine.ino`, line 249 of
`ptm-toaster-control-test.ino`). -/
def SAMPLE_DELAY : ℕ := 500

/-- The boolean value of the sample-tick gate. -/
def sampleGate (now sample_timestamp : ℕ) : Bool :=
  decide (SAMPLE_DELAY ≤ usub32 now sample_timestamp)

/-! ### Labeling-mode state machine (`ptm-toaster-control-test.ino`, `loop`) -/

/-- Debounce settle time `DEBOUNCE_DELAY = 30` ms. -/
def DEBOUNCE_DELAY : ℕ := 30

/-- Mode count `NUM_MODES = 4`. -/
def NUM_MODES : ℕ := 4

/-- Mode `MODE_IDLE = 0`. -/
def MODE_IDLE : ℕ := 0

/-- Mode `MODE_BACKGROUND = 1`. -/
def MODE_BACKGROUND : ℕ := 1

/-- Mode `MODE_TOASTING = 2`. -/
def MODE_TOASTING : ℕ := 2

/-- Mode `MODE_BURNT = 3`. -/
def MODE_BURNT : ℕ := 3

/-- The committed-press mode update (lines 214-217):
`mode = mode + 1; if (mode >= NUM_MODES) mode = MODE_IDLE;`. -/
def modeAdvance (m : ℕ) : ℕ :=
  if NUM_MODES ≤ m + 1 then MODE_IDLE else m + 1

/-- The static debounce state of `loop`: current mode, committed button
state `btn_state`, raw level seen last iteration `last_btn_state`, and the
last time the raw level changed `last_dbnc_time`. `true` models `HIGH`
(button released, input pull-up), `false` models `LOW` (pressed). -/
structure DbState where
  mode : ℕ
  btn_state : Bool
  last_btn_state : Bool
  last_dbnc_time : ℕ

/-- One iteration of the debounce logic (lines 201-245), polled at
millisecond time `now` with raw reading `btn_reading`:

    if (btn_reading != last_btn_state) last_dbnc_time = millis();
    if ((millis() - last_dbnc_time) > DEBOUNCE_DELAY)
      if (btn_reading != btn_state) {
        btn_state = btn_reading;
        if (btn_state == LOW) { mode advance + LCD/serial }
      }
    last_btn_state = btn_reading;

Returns the new state and whether the mode advanced this iteration. -/
def dbStep (s : DbState) (now : ℕ) (btn_reading : Bool) : DbState × Bool :=
  let s1 :=
    if btn_reading ≠ s.last_btn_state then
      { s with last_dbnc_time := now % 4294967296 }
    else s
  let out :=
    if DEBOUNCE_DELAY < usub32 now s1.last_dbnc_time then
      if btn_reading ≠ s1.btn_state then
        if btn_reading = false then
          ({ s1 with btn_state := btn_reading, mode := modeAdvance s1.mode }, true)
        else
          ({ s1 with btn_state := btn_reading }, false)
      else (s1, false)
    else (s1, false)
  ({ out.1 with last_btn_state := btn_reading }, out.2)

/-- Run the debounce logic over a list of polls `(time, raw reading)`
(successive iterations of `loop`), counting mode advances. -/
def dbRun (s : DbState) : List (ℕ × Bool) → DbState × ℕ
  | [] => (s, 0)
  | p :: ps =>
    let r := dbStep s p.1 p.2
    let rest := dbRun r.1 ps
    (rest.1, (if r.2 then 1 else 0) + rest.2)

/-! ### Debounce step lemmas -/

/-- A poll whose reading equals both the committed and the last-seen level
changes nothing. -/
lemma dbStep_settled (s : DbState) (now : ℕ) (r : Bool)
    (hb : s.btn_state = r) (hl : s.last_btn_state = r) :
    dbStep s now r = (s, false) := by
  obtain ⟨m, bs, lbs, ldt⟩ := s
  simp only at hb hl
  subst hb hl
  simp [dbStep]

/-- While a press is observed but the debounce window has not elapsed,
nothing changes. -/
lemma dbStep_wait (s : DbState) (now : ℕ)
    (hb : s.btn_state = true) (hl : s.last_btn_state = false)
    (hgate : usub32 now s.last_dbnc_time ≤ DEBOUNCE_DELAY) :
    dbStep s now false = (s, false) := by
  obtain ⟨m, bs, lbs, ldt⟩ := s
  simp only at hb hl hgate
  subst hb hl
  simp [dbStep, Nat.not_lt.mpr hgate]

/-- Once the raw level has been LOW past the debounce window, the press is
committed and the mode advances. -/
lemma dbStep_commit (s : DbState) (now : ℕ)
    (hb : s.btn_state = true) (hl : s.last_btn_state = false)
    (hgate : DEBOUNCE_DELAY < usub32 now s.last_dbnc_time) :
    dbStep s now false
      = ({ s with btn_state := false, mode := modeAdvance s.mode }, true) := by
  obtain ⟨m, bs, lbs, ldt⟩ := s
  simp only at hb hl hgate
  subst hb hl
  simp [dbStep, hgate]

/-- The first poll that observes a changed raw level only resets the
debounce timer (the gate compares `now` with itself). -/
lemma dbStep_first_change (s : DbState) (now : ℕ) (r : Bool)
    (hl : s.last_btn_state ≠ r) :
    dbStep s now r
      = ({ s with last_dbnc_time := now % 4294967296, last_btn_state := r }, false) := by
  obtain ⟨m, bs, lbs, ldt⟩ := s
  simp only at hl
  have hr : r ≠ lbs := fun h => hl h.symm
  have hz : usub32 now (now % 4294967296) = 0 := by
    unfold usub32
    omega
  simp [dbStep, hr, hz, DEBOUNCE_DELAY]

/-- A settled state polled any number of times at its own level never
changes and never advances the mode. -/
lemma dbRun_settled :
    ∀ (polls : List (ℕ × Bool)) (s : DbState) (r : Bool),
      s.btn_state = r → s.last_btn_state = r → (∀ p ∈ polls, p.2 = r) →
      dbRun s polls = (s, 0) := by
  intro polls
  induction polls with
  | nil => intro s r _ _ _; rfl
  | cons p ps ih =>
    intro s r hb hl hall
    have hp : p.2 = r := hall p (List.mem_cons_self p ps)
    have hstep : dbStep s p.1 p.2 = (s, false) := by
      rw [hp]; exact dbStep_settled s p.1 r hb hl
    have hrest : ∀ q ∈ ps, q.2 = r := fun q hq => hall q (List.mem_cons_of_mem p hq)
    simp [dbRun, hstep, ih s r hb hl hrest]

/-- Modulo-`2^32` elapsed time is real elapsed time while no wraparound gap
exceeds `2^32`. -/
lemma usub32_of_le (a b : ℕ) (hle : b ≤ a) (hlt : a - b < 4294967296)
    (hb : b < 4294967296) : usub32 a b = a - b := by
  unfold usub32
  omega

/-- After the press has been observed (timer reset at `t0`), further LOW
polls commit exactly one mode advance as soon as one of them happens more
than `DEBOUNCE_DELAY` ms after `t0`. -/
lemma dbRun_press_phase :
    ∀ (polls : List (ℕ × Bool)) (s : DbState) (t0 : ℕ),
      s.btn_state = true → s.last_btn_state = false →
      s.last_dbnc_time = t0 → t0 < 4294967296 →
      (∀ p ∈ polls, p.2 = false ∧ t0 ≤ p.1 ∧ p.1 < 4294967296) →
      (∃ p ∈ polls, t0 + DEBOUNCE_DELAY < p.1) →
      (dbRun s polls).1.mode = modeAdvance s.mode ∧ (dbRun s polls).2 = 1 := by
  intro polls
  induction polls with
  | nil =>
    intro s t0 _ _ _ _ _ hex
    simp at hex
  | cons p ps ih =>
    intro s t0 hb hl hd ht0 hall hex
    obtain ⟨hp2, hpge, hplt⟩ := hall p (List.mem_cons_self p ps)
    have hrest : ∀ q ∈ ps, q.2 = false ∧ t0 ≤ q.1 ∧ q.1 < 4294967296 :=
      fun q hq => hall q (List.mem_cons_of_mem p hq)
    by_cases hlate : t0 + DEBOUNCE_DELAY < p.1
    · -- this poll commits the press; the remaining LOW polls are settled
      have hgate : DEBOUNCE_DELAY < usub32 p.1 s.last_dbnc_time := by
        rw [hd, usub32_of_le p.1 t0 hpge (by omega) ht0]
        omega
      have hstep : dbStep s p.1 p.2
          = ({ s with btn_state := false, mode := modeAdvance s.mode }, true) := by
        rw [hp2]; exact dbStep_commit s p.1 hb hl hgate
      have hsettled :
          dbRun { s with btn_state := false, mode := modeAdvance s.mode } ps
            = ({ s with btn_state := false, mode := modeAdvance s.mode }, 0) := by
        refine dbRun_settled ps _ false rfl ?_ ?_
        · simpa using hl
        · exact fun q hq => (hrest q hq).1
      simp [dbRun, hstep, hsettled]
    · -- gate still closed: nothing changes, the committing poll is later
      have hgate : usub32 p.1 s.last_dbnc_time ≤ DEBOUNCE_DELAY := by
        rw [hd, usub32_of_le p.1 t0 hpge (by omega) ht0]
        omega
      have hstep : dbStep s p.1 p.2 = (s, false) := by
        rw [hp2]; exact dbStep_wait s p.1 hb hl hgate
      have hex' : ∃ q ∈ ps, t0 + DEBOUNCE_DELAY < q.1 := by
        rcases hex with ⟨q, hq, hqlate⟩
        rcases List.mem_cons.mp hq with hqp | hqps
        · exact absurd (hqp ▸ hqlate) hlate
        · exact ⟨q, hqps, hqlate⟩
      have := ih s t0 hb hl hd ht0 hrest hex'
      simp [dbRun, hstep, this.1, this.2]

/-- An input trace toggles faster than the debounce window when every poll
either observes a raw-level change (which resets the timer) or happens at
most `DEBOUNCE_DELAY` ms after the last observed change. -/
def fastToggle : DbState → List (ℕ × Bool) → Prop
  | _, [] => True
  | s, p :: ps =>
    (p.2 = s.last_btn_state → usub32 p.1 s.last_dbnc_time ≤ DEBOUNCE_DELAY)
    ∧ fastToggle (dbStep s p.1 p.2).1 ps

/-- A trace that toggles faster than the debounce window commits no button
state change and no mode transition. -/
lemma fastToggle_no_advance :
    ∀ (polls : List (ℕ × Bool)) (s : DbState), fastToggle s polls →
      (dbRun s polls).1.mode = s.mode
      ∧ (dbRun s polls).1.btn_state = s.btn_state
      ∧ (dbRun s polls).2 = 0 := by
  intro polls
  induction polls with
  | nil => intro s _; exact ⟨rfl, rfl, rfl⟩
  | cons p ps ih =>
    intro s hft
    obtain ⟨hhead, htail⟩ := hft
    by_cases hsame : p.2 = s.last_btn_state
    · have hgate : usub32 p.1 s.last_dbnc_time ≤ DEBOUNCE_DELAY := hhead hsame
      have hstep : dbStep s p.1 p.2
          = ({ s with last_btn_state := p.2 }, false) := by
        obtain ⟨m, bs, lbs, ldt⟩ := s
        simp only at hsame hgate
        subst hsame
        simp [dbStep, Nat.not_lt.mpr hgate]
      rw [hstep] at htail
      have := ih _ htail
      simp only [hstep] at this ⊢
      simp [dbRun, hstep, this.1, this.2.1, this.2.2]
    · have hstep : dbStep s p.1 p.2
          = ({ s with last_dbnc_time := p.1 % 4294967296, last_btn_state := p.2 },
              false) := by
        exact dbStep_first_change s p.1 p.2 (fun h => hsame h.symm)
      rw [hstep] at htail
      have := ih _ htail
      simp [dbRun, hstep, this.1, this.2.1, this.2.2]

/-! ### Spec-side two-state controller (for claim C5) -/

/-- The two controller states the spec describes. -/
inductive CtrlState where
  | armed
  | cancelled
deriving DecidableEq

/-- The two-state decision controller as the spec words it: ARMED
transitions to CANCELLED when `time_to_burnt < CANCEL_THRESHOLD`, and
CANCELLED re-arms automatically once the physical toasting signal goes
false. Stated from the spec's words, to be compared with the code's
behavior. -/
def specDecisionStep (st : CtrlState) (time_to_burnt : ℚ) (toasting : Bool) :
    CtrlState :=
  match st with
  | .armed => if time_to_burnt < CANCEL_THRESHOLD then .cancelled else .armed
  | .cancelled => if toasting = false then .armed else .cancelled

/-- The spec controller asserts the cancel output while CANCELLED. -/
def specAsserts : CtrlState → Bool
  | .armed => false
  | .cancelled => true

/-! ### Shared tick lemmas -/

/-- On a tick whose sensor reads all succeed, the cancel pin is driven to
the boolean value of `time_to_burnt < CANCEL_THRESHOLD`. -/
lemma tick_cancel_pin_eq (classify : (ℕ → ℚ) → ℕ → ℚ) (s : PTMState)
    (r : SensorReads) (hb : r.bme_err = false) (hs : r.sgp_err = false) :
    (tick classify s r).state.cancel_pin
      = decide (classify (pushFrame s.input_buf (frame_buf r)) 0 < CANCEL_THRESHOLD) := by
  unfold tick
  rw [if_neg (by simp [hb]), if_neg (by simp [hs])]
  by_cases h : classify (pushFrame s.input_buf (frame_buf r)) 0 < CANCEL_THRESHOLD
  · simp [h]
  · simp [h]

/-- The frame assembly reads only the sensor values, not the toasting-sense
input. -/
lemma frame_buf_toasting_irrel (r : SensorReads) (b : Bool) :
    frame_buf { r with toasting := b } = frame_buf r := by
  obtain ⟨t, be, se, a1, a2, a3, a4, a5, a6, a7, a8, a9⟩ := r
  rfl

/-! ### Concrete fixtures used by witnesses and counterexamples -/

/-- The all-zero buffer (the zero-initialized `input_buf` at startup). -/
def zeroBuf : ℕ → ℚ := fun _ => 0

/-- Startup loop state: zero window, cancel pin low. -/
def s0 : PTMState := { input_buf := zeroBuf, cancel_pin := false }

/-- A successful sensor read with the toaster energized. -/
def okReads : SensorReads :=
  { toasting := true, bme_err := false, sgp_err := false
    temperature := 0, humidity := 0, sgp_co2 := 0, sgp_tvoc := 0
    gm_voc_v := 0, gm_no2_v := 0, gm_eth_v := 0, gm_co_v := 0, nh3_v := 0 }

/-- A successful sensor read with the toaster off. -/
def okReadsNoToast : SensorReads := { okReads with toasting := false }

/-- A tick on which the BME680 read fails. -/
def faultReads : SensorReads := { okReads with bme_err := true }

/-- A classifier stub returning the same value for every class. -/
def constClassifier (v : ℚ) : (ℕ → ℚ) → ℕ → ℚ := fun _ _ => v

/-- A window of `WINDOW_LEN` all-zero raw frames. -/
def zeroFrames : List (ℕ → ℚ) := List.replicate WINDOW_LEN zeroBuf

/-- A buffer whose entry at `k` is `k`. -/
def rampBuf : ℕ → ℚ := fun k => (k : ℚ)

/-! ### Claim theorems -/

/-- C1: on every completed tick the actuator command is CANCEL-asserted
(pin driven HIGH) exactly when the time-to-burnt value (classification
index 0) is strictly below `CANCEL_THRESHOLD`; in particular
`CANCEL_THRESHOLD - 1` asserts and `CANCEL_THRESHOLD` does not. -/
theorem C1_cancel_strict_threshold :
    ∀ (classify : (ℕ → ℚ) → ℕ → ℚ) (s : PTMState) (r : SensorReads),
      r.bme_err = false → r.sgp_err = false →
      ((tick classify s r).state.cancel_pin = true
          ↔ classify (pushFrame s.input_buf (frame_buf r)) 0 < CANCEL_THRESHOLD)
      ∧ (tick (constClassifier (CANCEL_THRESHOLD - 1)) s r).state.cancel_pin = true
      ∧ (tick (constClassifier CANCEL_THRESHOLD) s r).state.cancel_pin = false := by
  intro classify s r hb hs
  refine ⟨?_, ?_, ?_⟩
  · rw [tick_cancel_pin_eq classify s r hb hs]
    simp
  · rw [tick_cancel_pin_eq _ s r hb hs]
    simp [constClassifier, CANCEL_THRESHOLD]
  · rw [tick_cancel_pin_eq _ s r hb hs]
    simp [constClassifier]

/-- Witness for C1 at a concrete classifier output and sensor frame. -/
theorem C1_witness :
    okReads.bme_err = false ∧ okReads.sgp_err = false ∧
    (((tick (constClassifier 39) s0 okReads).state.cancel_pin = true
        ↔ constClassifier 39 (pushFrame s0.input_buf (frame_buf okReads)) 0
            < CANCEL_THRESHOLD)
      ∧ (tick (constClassifier (CANCEL_THRESHOLD - 1)) s0 okReads).state.cancel_pin = true
      ∧ (tick (constClassifier CANCEL_THRESHOLD) s0 okReads).state.cancel_pin = false) :=
  ⟨rfl, rfl, C1_cancel_strict_threshold (constClassifier 39) s0 okReads rfl rfl⟩

/-- C2: the window push is FIFO at frame granularity: after pushing `N ≥
WINDOW_LEN` frames, slot `i * NUM_CHANNELS + j` of the window holds channel
`j` of the standardized `(N - WINDOW_LEN + i)`-th pushed frame — the last
`WINDOW_LEN` frames, flattened oldest-first, with no partial-frame state. -/
theorem C2_window_fifo :
    ∀ (fs : List (ℕ → ℚ)) (b : ℕ → ℚ),
      WINDOW_LEN ≤ fs.length →
      ∀ i j, i < WINDOW_LEN → j < NUM_CHANNELS →
        (fs.foldl pushFrame b) (i * NUM_CHANNELS + j)
          = standardize (fs.getD (fs.length - WINDOW_LEN + i) (fun _ => 0)) j := by
  intro fs b hN i j hi hj
  have hidx : i + fs.length - WINDOW_LEN = fs.length - WINDOW_LEN + i := by omega
  rw [window_foldl_pushFrame fs b i j hi hj, if_pos (by omega), hidx]

/-- Witness for C2: twenty zero frames pushed onto the startup buffer. -/
theorem C2_witness :
    WINDOW_LEN ≤ zeroFrames.length ∧ 0 < WINDOW_LEN ∧ 0 < NUM_CHANNELS ∧
    (zeroFrames.foldl pushFrame zeroBuf) (0 * NUM_CHANNELS + 0)
      = standardize (zeroFrames.getD (zeroFrames.length - WINDOW_LEN + 0) (fun _ => 0)) 0 :=
  ⟨by simp [zeroFrames], by decide, by decide,
    C2_window_fifo zeroFrames zeroBuf (by simp [zeroFrames]) 0 0 (by decide) (by decide)⟩

/-- C3: for every raw frame and every channel `j` with nonzero standard
deviation, the value written into the newest window slot is exactly
`(frame[j] - means[j]) / std_devs[j]`, computed from the fixed
training-time constant tables. -/
theorem C3_standardize_formula :
    ∀ (b frame : ℕ → ℚ) (j : ℕ), j < NUM_CHANNELS → std_devs.getD j 0 ≠ 0 →
      pushFrame b frame (final_frame_idx + j)
        = (frame j - means.getD j 0) / std_devs.getD j 0 := by
  intro b frame j hj _
  rw [pushFrame_frame_last b frame j hj]
  rfl

/-- Witness for C3 at channel 0 of a concrete frame. -/
theorem C3_witness :
    0 < NUM_CHANNELS ∧ std_devs.getD 0 0 ≠ 0 ∧
    pushFrame zeroBuf rampBuf (final_frame_idx + 0)
      = (rampBuf 0 - means.getD 0 0) / std_devs.getD 0 0 :=
  ⟨by decide, by simp [std_devs]; norm_num,
    C3_standardize_formula zeroBuf rampBuf 0 (by decide) (by simp [std_devs]; norm_num)⟩

/-- C4: a failing sensor read aborts the tick: the window is not pushed
and is unchanged, no inference runs, the actuator command is unchanged,
the fault is logged, and the device retries (a following tick with good
reads pushes again). -/
theorem C4_sensor_fault_aborts_tick :
    ∀ (classify : (ℕ → ℚ) → ℕ → ℚ) (s : PTMState) (r : SensorReads),
      r.bme_err = true ∨ r.sgp_err = true →
      (tick classify s r).state = s
      ∧ (tick classify s r).pushed = false
      ∧ (tick classify s r).inferred = false
      ∧ (tick classify s r).log ≠ []
      ∧ (tick classify s r).wrote_pin = false
      ∧ ∀ (r2 : SensorReads), r2.bme_err = false → r2.sgp_err = false →
          (tick classify (tick classify s r).state r2).pushed = true := by
  intro classify s r h
  have hres :
      (tick classify s r).state = s
      ∧ (tick classify s r).pushed = false
      ∧ (tick classify s r).inferred = false
      ∧ (tick classify s r).log ≠ []
      ∧ (tick classify s r).wrote_pin = false := by
    cases hbme : r.bme_err with
    | true => unfold tick; simp [hbme]
    | false =>
      have hsgp : r.sgp_err = true := by
        rcases h with h | h
        · rw [hbme] at h; exact absurd h (by simp)
        · exact h
      unfold tick; simp [hbme, hsgp]
  obtain ⟨h1, h2, h3, h4, h5⟩ := hres
  refine ⟨h1, h2, h3, h4, h5, ?_⟩
  intro r2 hb2 hs2
  have hpush : ∀ (s3 : PTMState), (tick classify s3 r2).pushed = true := by
    intro s3
    unfold tick
    rw [if_neg (by simp [hb2]), if_neg (by simp [hs2])]
    by_cases hcl : classify (pushFrame s3.input_buf (frame_buf r2)) 0 < CANCEL_THRESHOLD
    · simp [hcl]
    · simp [hcl]
  exact hpush _

/-- Witness for C4: a concrete BME680 fault tick followed by a good tick. -/
theorem C4_witness :
    (faultReads.bme_err = true ∨ faultReads.sgp_err = true)
    ∧ (tick (constClassifier 39) s0 faultReads).state = s0
    ∧ (tick (constClassifier 39) s0 faultReads).pushed = false
    ∧ (tick (constClassifier 39) s0 faultReads).inferred = false
    ∧ (tick (constClassifier 39) s0 faultReads).log ≠ []
    ∧ (tick (constClassifier 39) s0 faultReads).wrote_pin = false
    ∧ (tick (constClassifier 39)
        (tick (constClassifier 39) s0 faultReads).state okReads).pushed = true := by
  have h := C4_sensor_fault_aborts_tick (constClassifier 39) s0 faultReads (Or.inl rfl)
  exact ⟨Or.inl rfl, h.1, h.2.1, h.2.2.1, h.2.2.2.1, h.2.2.2.2.1,
    h.2.2.2.2.2 okReads rfl rfl⟩

/-- C5, counterexample: the code is not the spec's two-state machine. After
a cancelling tick (`time_to_burnt = 30`), a tick with `time_to_burnt = 50`
while the toasting-sense input is still HIGH drives the pin LOW, whereas the
spec machine stays CANCELLED (asserted) until toasting goes false. -/
theorem C5_counterexample :
    (tick (constClassifier 30) s0 okReads).state.cancel_pin = true
    ∧ (tick (constClassifier 50)
        (tick (constClassifier 30) s0 okReads).state okReads).state.cancel_pin = false
    ∧ specAsserts
        (specDecisionStep (specDecisionStep CtrlState.armed 30 true) 50 true) = true := by
  refine ⟨?_, ?_, rfl⟩
  · rw [tick_cancel_pin_eq _ s0 okReads rfl rfl]
    simp [constClassifier, CANCEL_THRESHOLD]
    norm_num
  · rw [tick_cancel_pin_eq _ _ okReads rfl rfl]
    simp [constClassifier, CANCEL_THRESHOLD]
    norm_num

/-- C5, amended: the decision logic is stateless. On every completed tick
the actuator is asserted exactly when `time_to_burnt < CANCEL_THRESHOLD`,
independently of the previously driven pin level and of the toasting-sense
input (which only gates the `Toasting...` display); consequently the
controller re-arms automatically on any tick with
`time_to_burnt ≥ CANCEL_THRESHOLD`, with no manual reset. -/
theorem C5_actuator_stateless :
    ∀ (classify : (ℕ → ℚ) → ℕ → ℚ) (s : PTMState) (r : SensorReads),
      r.bme_err = false → r.sgp_err = false →
      ((tick classify s r).state.cancel_pin = true
          ↔ classify (pushFrame s.input_buf (frame_buf r)) 0 < CANCEL_THRESHOLD)
      ∧ (tick classify s r).state.cancel_pin
          = (tick classify { s with cancel_pin := !s.cancel_pin }
              { r with toasting := !r.toasting }).state.cancel_pin := by
  intro classify s r hb hs
  have hb' : ({ r with toasting := !r.toasting } : SensorReads).bme_err = false := hb
  have hs' : ({ r with toasting := !r.toasting } : SensorReads).sgp_err = false := hs
  constructor
  · rw [tick_cancel_pin_eq classify s r hb hs]
    simp
  · rw [tick_cancel_pin_eq classify s r hb hs,
      tick_cancel_pin_eq classify _ _ hb' hs',
      frame_buf_toasting_irrel r (!r.toasting)]

/-- Witness for C5 at a concrete classifier output and sensor frame. -/
theorem C5_witness :
    okReads.bme_err = false ∧ okReads.sgp_err = false ∧
    (((tick (constClassifier 50) s0 okReads).state.cancel_pin = true
        ↔ constClassifier 50 (pushFrame s0.input_buf (frame_buf okReads)) 0
            < CANCEL_THRESHOLD)
      ∧ (tick (constClassifier 50) s0 okReads).state.cancel_pin
          = (tick (constClassifier 50) { s0 with cancel_pin := !s0.cancel_pin }
              { okReads with toasting := !okReads.toasting }).state.cancel_pin) :=
  ⟨rfl, rfl, C5_actuator_stateless (constClassifier 50) s0 okReads rfl rfl⟩

/-- C6, counterexample: a tick whose BME680 read fails does not write the
actuator pin at all, and a completed tick with `time_to_burnt = 50` and the
toasting-sense input low draws the estimate but no textual status. -/
theorem C6_counterexample :
    (tick (constClassifier 50) s0 faultReads).wrote_pin = false
    ∧ (tick (constClassifier 50) s0 okReadsNoToast).lcd
        = some { time_shown := 50, status := none } := by
  constructor
  · rfl
  · unfold tick
    rw [if_neg (by simp [okReadsNoToast, okReads]), if_neg (by simp [okReadsNoToast, okReads])]
    rw [if_neg (by simp [constClassifier, CANCEL_THRESHOLD]; norm_num)]
    simp [constClassifier, okReadsNoToast, okReads]

/-- C6, amended: every tick on which both sensor reads succeed writes the
actuator pin to the computed boolean and redraws the display with the
time-to-burnt estimate; the textual status is `Done!` exactly when the
cancel condition holds, and `Toasting...` exactly when it does not hold and
the toasting-sense input is high (otherwise no status is drawn). Faulted
ticks write neither. -/
theorem C6_tick_outputs :
    ∀ (classify : (ℕ → ℚ) → ℕ → ℚ) (s : PTMState) (r : SensorReads),
      r.bme_err = false → r.sgp_err = false →
      (tick classify s r).wrote_pin = true
      ∧ (tick classify s r).state.cancel_pin
          = decide (classify (pushFrame s.input_buf (frame_buf r)) 0 < CANCEL_THRESHOLD)
      ∧ ∃ d, (tick classify s r).lcd = some d
          ∧ d.time_shown = classify (pushFrame s.input_buf (frame_buf r)) 0
          ∧ (d.status = some "Done!"
              ↔ classify (pushFrame s.input_buf (frame_buf r)) 0 < CANCEL_THRESHOLD)
          ∧ (d.status = some "Toasting..."
              ↔ (¬ classify (pushFrame s.input_buf (frame_buf r)) 0 < CANCEL_THRESHOLD
                  ∧ r.toasting = true)) := by
  intro classify s r hb hs
  refine ⟨?_, tick_cancel_pin_eq classify s r hb hs, ?_⟩
  · unfold tick
    rw [if_neg (by simp [hb]), if_neg (by simp [hs])]
    by_cases hcl : classify (pushFrame s.input_buf (frame_buf r)) 0 < CANCEL_THRESHOLD
    · simp [hcl]
    · simp [hcl]
  · unfold tick
    rw [if_neg (by simp [hb]), if_neg (by simp [hs])]
    by_cases hcl : classify (pushFrame s.input_buf (frame_buf r)) 0 < CANCEL_THRESHOLD
    · rw [if_pos hcl]
      refine ⟨_, rfl, rfl, ?_, ?_⟩
      · simp [hcl]
      · simp [hcl]
    · rw [if_neg hcl]
      refine ⟨_, rfl, rfl, ?_, ?_⟩
      · by_cases ht : r.toasting = true
        · simp [ht, hcl]
        · simp [ht, hcl]
      · by_cases ht : r.toasting = true
        · simp [ht, hcl]
        · simp [ht, hcl]

/-- Witness for C6 at a concrete classifier output and sensor frame. -/
theorem C6_witness :
    okReads.bme_err = false ∧ okReads.sgp_err = false ∧
    ((tick (constClassifier 39) s0 okReads).wrote_pin = true
      ∧ (tick (constClassifier 39) s0 okReads).state.cancel_pin
          = decide (constClassifier 39 (pushFrame s0.input_buf (frame_buf okReads)) 0
              < CANCEL_THRESHOLD)
      ∧ ∃ d, (tick (constClassifier 39) s0 okReads).lcd = some d
          ∧ d.time_shown = constClassifier 39 (pushFrame s0.input_buf (frame_buf okReads)) 0
          ∧ (d.status = some "Done!"
              ↔ constClassifier 39 (pushFrame s0.input_buf (frame_buf okReads)) 0
                  < CANCEL_THRESHOLD)
          ∧ (d.status = some "Toasting..."
              ↔ (¬ constClassifier 39 (pushFrame s0.input_buf (frame_buf okReads)) 0
                    < CANCEL_THRESHOLD
                  ∧ okReads.toasting = true))) :=
  ⟨rfl, rfl, C6_tick_outputs (constClassifier 39) s0 okReads rfl rfl⟩

/-- C7, counterexample: a request one float past the end of the
`WINDOW_LEN * NUM_CHANNELS = 180` float window buffer is out of bounds, yet
the callback still returns the success status `EIDSP_OK`, not an error
status code. -/
theorem C7_counterexample :
    WINDOW_LEN * NUM_CHANNELS < 180 + 1
    ∧ (get_signal_data zeroBuf 180 1).2 = EIDSP_OK := by
  exact ⟨by decide, rfl⟩

/-- C7, amended: the callback copies exactly `length` contiguous floats
starting at `offset` (`out[i] = input_buf[offset + i]`) and always returns
`EIDSP_OK`; it performs no bounds check, so an out-of-range request is never
reported through the status code. -/
theorem C7_slice_semantics :
    ∀ (buf : ℕ → ℚ) (offset len : ℕ),
      (get_signal_data buf offset len).2 = EIDSP_OK
      ∧ (get_signal_data buf offset len).1.length = len
      ∧ ∀ i, i < len → (get_signal_data buf offset len).1.getD i 0 = buf (offset + i) := by
  intro buf offset len
  refine ⟨rfl, by simp [get_signal_data], ?_⟩
  intro i hi
  simp [get_signal_data, List.getD_eq_getElem?_getD, List.getElem?_map,
    List.getElem?_range, hi]

/-- Witness for C7: a two-float slice of the ramp buffer at offset 9. -/
theorem C7_witness :
    (get_signal_data rampBuf 9 2).2 = EIDSP_OK
    ∧ (get_signal_data rampBuf 9 2).1.length = 2
    ∧ 0 < 2
    ∧ (get_signal_data rampBuf 9 2).1.getD 0 0 = rampBuf (9 + 0) :=
  ⟨(C7_slice_semantics rampBuf 9 2).1, (C7_slice_semantics rampBuf 9 2).2.1,
    by decide, (C7_slice_semantics rampBuf 9 2).2.2 0 (by decide)⟩

/-- A settled pressed debounce state (button held LOW, mode IDLE). -/
def heldState : DbState :=
  { mode := MODE_IDLE, btn_state := false, last_btn_state := false, last_dbnc_time := 0 }

/-- A sustained release: the raw level goes HIGH at t = 100 ms and is still
HIGH at t = 200 ms, far beyond the debounce window. -/
def releasePolls : List (ℕ × Bool) := [(100, true), (200, true)]

/-- A settled released debounce state (button up, mode IDLE). -/
def idleState : DbState :=
  { mode := MODE_IDLE, btn_state := true, last_btn_state := true, last_dbnc_time := 0 }

/-- Four press-release cycles, each level held 40 ms (beyond the 30 ms
debounce window). -/
def fourPressPolls : List (ℕ × Bool) :=
  [(1000, false), (1040, false), (1100, true), (1140, true),
   (2000, false), (2040, false), (2100, true), (2140, true),
   (3000, false), (3040, false), (3100, true), (3140, true),
   (4000, false), (4040, false), (4100, true), (4140, true)]

/-- C8, counterexample: a single sustained LOW→HIGH (release) transition
held stable for 100 ms ≥ `DEBOUNCE_DELAY` is committed by the debounce
logic (`btn_state` becomes HIGH) yet produces zero mode advances, whereas
the claim demands exactly one advance for every single sustained
transition. -/
theorem C8_counterexample :
    DEBOUNCE_DELAY ≤ 200 - 100
    ∧ (dbRun heldState releasePolls).2 = 0
    ∧ (dbRun heldState releasePolls).1.mode = heldState.mode
    ∧ (dbRun heldState releasePolls).1.btn_state = true := by
  decide

/-- C8, amended: raw input toggling faster than the debounce window (every
poll either observes a level change or happens at most `DEBOUNCE_DELAY` ms
after the last observed change) produces zero mode transitions; a single
sustained HIGH→LOW (press) transition, polled again more than
`DEBOUNCE_DELAY` ms after the observed change while still LOW, produces
exactly one mode advance. -/
theorem C8_debounce :
    (∀ (s : DbState) (polls : List (ℕ × Bool)), fastToggle s polls →
        (dbRun s polls).1.mode = s.mode ∧ (dbRun s polls).2 = 0)
    ∧ (∀ (s : DbState) (t0 : ℕ) (rest : List (ℕ × Bool)),
        s.btn_state = true → s.last_btn_state = true →
        t0 < 4294967296 →
        (∀ p ∈ rest, p.2 = false ∧ t0 ≤ p.1 ∧ p.1 < 4294967296) →
        (∃ p ∈ rest, t0 + DEBOUNCE_DELAY < p.1) →
        (dbRun s ((t0, false) :: rest)).1.mode = modeAdvance s.mode
        ∧ (dbRun s ((t0, false) :: rest)).2 = 1) := by
  constructor
  · intro s polls hft
    have h := fastToggle_no_advance polls s hft
    exact ⟨h.1, h.2.2⟩
  · intro s t0 rest hb hl ht0 hall hex
    have hstep : dbStep s t0 false
        = ({ s with last_dbnc_time := t0 % 4294967296, last_btn_state := false },
            false) := by
      apply dbStep_first_change
      rw [hl]
      simp
    have hmod : t0 % 4294967296 = t0 := Nat.mod_eq_of_lt ht0
    have hphase :=
      dbRun_press_phase rest
        { s with last_dbnc_time := t0 % 4294967296, last_btn_state := false }
        t0 hb rfl (by simpa using hmod) ht0 hall hex
    simp only [dbRun, hstep]
    simpa using hphase

/-- Witness for C8: a fast single toggle produces no advance; a press held
past the debounce window produces exactly one. -/
theorem C8_witness :
    ((dbRun heldState [(35, true)]).1.mode = heldState.mode
      ∧ (dbRun heldState [(35, true)]).2 = 0)
    ∧ ((dbRun idleState ((100, false) :: [(140, false)])).1.mode
          = modeAdvance idleState.mode
      ∧ (dbRun idleState ((100, false) :: [(140, false)])).2 = 1) := by
  constructor
  · apply C8_debounce.1 heldState [(35, true)]
    refine ⟨?_, trivial⟩
    intro h
    simp [heldState] at h
  · exact C8_debounce.2 idleState 100 [(140, false)] rfl rfl (by decide)
      (by decide) (by decide)

/-- C9: the labeling mode cycles in one direction with no skips,
IDLE → BACKGROUND → TOASTING → BURNT → IDLE: each committed press advances
by one step and four sustained presses (with releases in between) return
the machine to IDLE, having advanced exactly four times. -/
theorem C9_mode_cycle :
    modeAdvance MODE_IDLE = MODE_BACKGROUND
    ∧ modeAdvance MODE_BACKGROUND = MODE_TOASTING
    ∧ modeAdvance MODE_TOASTING = MODE_BURNT
    ∧ modeAdvance MODE_BURNT = MODE_IDLE
    ∧ (dbRun idleState fourPressPolls).1.mode = MODE_IDLE
    ∧ (dbRun idleState fourPressPolls).2 = 4 := by
  decide

/-- C10: the sample-tick gate compares elapsed time with unsigned 32-bit
subtraction, so with monotone real time (gaps below `2 ^ 32` ms) the
computed elapsed value is exact even across a `millis()` wraparound, and
the gate fires exactly when `SAMPLE_DELAY` ms have really elapsed. -/
theorem C10_millis_wraparound :
    ∀ (tprev tnow : ℕ), tprev ≤ tnow → tnow - tprev < 4294967296 →
      usub32 (tnow % 4294967296) (tprev % 4294967296) = tnow - tprev
      ∧ (sampleGate (tnow % 4294967296) (tprev % 4294967296) = true
          ↔ SAMPLE_DELAY ≤ tnow - tprev) := by
  intro tprev tnow h1 h2
  have key : usub32 (tnow % 4294967296) (tprev % 4294967296) = tnow - tprev := by
    unfold usub32
    omega
  refine ⟨key, ?_⟩
  unfold sampleGate
  rw [key]
  simp

/-- Witness for C10: a 500 ms gap that crosses the 32-bit wraparound
(previous stamp 4294967000, true now 4294967500, wrapped `millis` 204). -/
theorem C10_witness :
    (4294967000 : ℕ) ≤ 4294967500
    ∧ (4294967500 - 4294967000 : ℕ) < 4294967296
    ∧ (usub32 (4294967500 % 4294967296) (4294967000 % 4294967296)
          = 4294967500 - 4294967000
        ∧ (sampleGate (4294967500 % 4294967296) (4294967000 % 4294967296) = true
            ↔ SAMPLE_DELAY ≤ 4294967500 - 4294967000)) :=
  ⟨by decide, by decide,
    C10_millis_wraparound 4294967000 4294967500 (by decide) (by decide)⟩

end PTM
